import Mathlib

set_option maxRecDepth 100000

/-! Embedding of the CS5220 leaderboard core (src/app.py): the metrics
extractor `parse_output` / `extract_times`, the validator `validate_output`,
and the `submit` pipeline, modelled as pure functions.  Python floats are
modelled as rationals; a `float()` call that raises `ValueError` is modelled
by `Except.error PyErr.valueError`, which the surrounding functions
propagate exactly as Python propagates the exception.

The regular-expression scans of the source are modelled by explicit string
scanners.  For each of the three patterns used by the code the model is
exact for the strings it is applied to, because the adjacent pieces of every
pattern draw from pairwise disjoint character classes, so greedy/lazy
distinctions collapse and matching is deterministic; the justification is
recorded at each scanner.  The whitespace and digit classes are modelled
over ASCII (Python's `\s`/`\d` additionally accept some Unicode
characters). -/

/-- ASCII whitespace: the character class of the regex escape for spaces. -/
def isPySpace (c : Char) : Bool :=
  c = ' ' || c = '\t' || c = '\n' || c = '\r' || c = '\x0b' || c = '\x0c'

/-- The bracketed character class (digits, dot, e, E, plus, minus) that the
source uses to capture the numeric token after the equals sign. -/
def isNumTok (c : Char) : Bool :=
  c.isDigit || c = '.' || c = 'e' || c = 'E' || c = '+' || c = '-'

/-- litMatch pat s: the literal pat starts s. -/
def litMatch : List Char → List Char → Bool
  | [], _ => true
  | _ :: _, [] => false
  | p :: ps, c :: cs => p = c && litMatch ps cs

/-- dropLit pat s: consume the literal pat from the front of s. -/
def dropLit : List Char → List Char → Option (List Char)
  | [], s => some s
  | _ :: _, [] => none
  | p :: ps, c :: cs => if p = c then dropLit ps cs else none

/-- findSub pat s: index of the first occurrence of the literal pat in s
(re.search on a literal pattern). -/
def findSub (pat : List Char) : List Char → Option Nat
  | [] => if litMatch pat [] then some 0 else none
  | c :: cs => if litMatch pat (c :: cs) then some 0 else (findSub pat cs).map (· + 1)

/-- Python's substring containment test (the `in` operator on strings). -/
def containsSub (pat raw : List Char) : Bool :=
  (findSub pat raw).isSome

/-- First region delimited by the literals opener and closer: models
re.search of opener(.*?)closer with DOTALL.  The regex match starts at the
first occurrence of opener that is followed, anywhere later, by closer, and
the lazy group takes the shortest span.  When the first opener occurrence
has no closer after it, no later occurrence has either (a closer after a
later opener is also after the first), so scanning only the first opener
occurrence is exact. -/
def searchSection (opener closer : List Char) (raw : List Char) : Option (List Char) :=
  match findSub opener raw with
  | none => none
  | some i =>
      let rest := raw.drop (i + opener.length)
      match findSub closer rest with
      | none => none
      | some j => some (rest.take j)

/-- First token matched by a pattern of the form: literal lit, then optional
whitespace, then a nonempty greedy run of non-whitespace (the name and
timestamp patterns of the source).  The pattern can fail at an occurrence of
lit only when everything after that occurrence is whitespace up to the end
of the text; since lit contains no whitespace characters, no later
occurrence of lit can exist in that case, so scanning only the first
occurrence is exact.  The greedy optional-whitespace piece cannot
backtrack: shortening it would put a whitespace character where the
non-whitespace run must start. -/
def searchToken (lit : List Char) (raw : List Char) : Option (List Char) :=
  match findSub lit raw with
  | none => none
  | some i =>
      let rest := (raw.drop (i + lit.length)).dropWhile isPySpace
      if rest.isEmpty then none
      else some (rest.takeWhile (fun c => !(isPySpace c)))

/-- Numeric value of a run of decimal digits. -/
def digitsToNat (ds : List Char) : Nat :=
  ds.foldl (fun a c => 10 * a + (c.toNat - 48)) 0

/-- Optional leading sign, as a rational factor. -/
def pySign : List Char → ℚ × List Char
  | '+' :: cs => (1, cs)
  | '-' :: cs => (-1, cs)
  | cs => (1, cs)

/-- Optional leading sign, as an integer factor. -/
def pySignZ : List Char → ℤ × List Char
  | '+' :: cs => (1, cs)
  | '-' :: cs => (-1, cs)
  | cs => (1, cs)

/-- Exponent part of Python's float literal grammar: either the end of the
token, or e/E, an optional sign and a nonempty digit run consuming the rest
of the token. -/
def pyExpPart (v : ℚ) (cs : List Char) : Option ℚ :=
  match cs with
  | [] => some v
  | e :: rest =>
      if e = 'e' || e = 'E' then
        let (esgn, cs1) := pySignZ rest
        let ed := cs1.takeWhile Char.isDigit
        let cs2 := cs1.dropWhile Char.isDigit
        if ed.length = 0 then none
        else if cs2.isEmpty then some (v * (10 : ℚ) ^ (esgn * (digitsToNat ed : ℤ)))
        else none
      else none

/-- Python's float() on a token drawn from the captured character class
(digits, dot, e, E, plus, minus): optional sign, then a mantissa holding at
least one digit with at most one dot, then an optional exponent; any other
shape raises ValueError, modelled by none.  The inf/nan/underscore forms of
the full float() grammar need letters outside the captured class, so they
cannot occur here. -/
def pyFloat (tok : List Char) : Option ℚ :=
  let s := pySign tok
  let ip := s.2.takeWhile Char.isDigit
  let cs1 := s.2.dropWhile Char.isDigit
  match cs1 with
  | '.' :: cs2 =>
      let fp := cs2.takeWhile Char.isDigit
      let cs3 := cs2.dropWhile Char.isDigit
      if ip.length + fp.length = 0 then none
      else
        pyExpPart (s.1 * ((digitsToNat ip : ℚ) + (digitsToNat fp : ℚ) / (10 : ℚ) ^ fp.length)) cs3
  | _ =>
      if ip.length = 0 then none
      else pyExpPart (s.1 * (digitsToNat ip : ℚ)) cs1

/-- Literal head of the timing pattern. -/
def simLit : List Char := "Simulation Time".data

/-- Literal tail of the timing pattern. -/
def secondsLit : List Char := "seconds".data

/-- Attempt to match the timing pattern (the literal head, optional
whitespace, an equals sign, optional whitespace, a nonempty greedy run of
the numeric-token class, optional whitespace, the literal tail) at the head
of cs; on success return the captured token and the remainder after the
whole match.  Greediness needs no backtracking here: whitespace, the equals
sign and the token class are pairwise disjoint, and the literal tail starts
with a letter outside both the token class and the whitespace class, so
every starred piece simply takes its maximal run. -/
def matchSim (cs : List Char) : Option (List Char × List Char) :=
  match dropLit simLit cs with
  | none => none
  | some r1 =>
      match r1.dropWhile isPySpace with
      | '=' :: r2 =>
          let r3 := r2.dropWhile isPySpace
          let tok := r3.takeWhile isNumTok
          if tok.isEmpty then none
          else
            match dropLit secondsLit ((r3.dropWhile isNumTok).dropWhile isPySpace) with
            | none => none
            | some r5 => some (tok, r5)
      | _ => none

/-- re.findall scan: try the timing pattern at every position left to right
and resume immediately after the end of each match (all matches are
nonempty).  Fuel bounds the recursion; every step strictly shortens the
text (a successful match consumes at least its two literals), so fuel equal
to the text length never runs out early. -/
def findallSimF : Nat → List Char → List (List Char)
  | 0, _ => []
  | _ + 1, [] => []
  | fuel + 1, c :: cs =>
      match matchSim (c :: cs) with
      | some (tok, rest) => tok :: findallSimF fuel rest
      | none => findallSimF fuel cs

/-- All captured timing tokens of a text, in text order. -/
def findallSim (cs : List Char) : List (List Char) :=
  findallSimF cs.length cs

/-- The one Python exception the core can raise: ValueError from float(). -/
inductive PyErr where
  | valueError
deriving DecidableEq

deriving instance DecidableEq for Except

/-- The list comprehension applying float() to every captured token; the
first invalid token raises. -/
def floatList : List (List Char) → Except PyErr (List ℚ)
  | [] => .ok []
  | t :: ts =>
      match pyFloat t with
      | none => .error .valueError
      | some v =>
          match floatList ts with
          | .error e => .error e
          | .ok vs => .ok (v :: vs)

/-- extract_times (src/app.py:43-45): every `Simulation Time = X seconds`
value of a section, in text order; float() raises ValueError on a captured
token that is not a valid float literal. -/
def extract_times (sec : List Char) : Except PyErr (List ℚ) :=
  floatList (findallSim sec)

/-- Required opening marker (src/app.py:11). -/
def HEADER : List Char := "===== CS5220 HW3 LEADERBOARD SUBMISSION =====".data

/-- Required closing marker (src/app.py:12). -/
def FOOTER : List Char := "===== END CS5220 HW3 LEADERBOARD SUBMISSION =====".data

/-- Opening delimiter of the serial section as the regex requires it: the
marker followed by a newline. -/
def serialOpen : List Char := "--- SERIAL ---\n".data

/-- Closing delimiter of the serial section. -/
def serialClose : List Char := "--- END SERIAL ---".data

/-- Opening delimiter of the scaling section as the regex requires it: the
marker followed by a newline. -/
def scaleOpen : List Char := "--- SCALE_2M ---\n".data

/-- Closing delimiter of the scaling section. -/
def scaleClose : List Char := "--- END SCALE_2M ---".data

/-- Literal head of the submitter-name pattern. -/
def nameLit : List Char := "LEADERBOARD_NAME:".data

/-- Literal head of the timestamp pattern. -/
def timeLit : List Char := "TIMESTAMP:".data

/-- The metrics dictionary.  The code only ever stores these seven keys, so
the dictionary is modelled as one optional field per key; none means the
key is absent. -/
structure Metrics where
  RS1e5 : Option ℚ
  T_2M_64 : Option ℚ
  T_2M_128 : Option ℚ
  T_2M_256 : Option ℚ
  PE1 : Option ℚ
  PE2 : Option ℚ
  overall : Option ℚ
deriving DecidableEq

/-- The empty dictionary the extractor starts from. -/
def initMetrics : Metrics := ⟨none, none, none, none, none, none, none⟩

/-- Conditional first efficiency entry (src/app.py:76-77). -/
def pe1Step (t64 t128 : ℚ) (m : Metrics) : Metrics :=
  if 0 < t128 then { m with PE1 := some (t64 / (2 * t128)) } else m

/-- Conditional second efficiency entry (src/app.py:78-79). -/
def pe2Step (t128 t256 : ℚ) (m : Metrics) : Metrics :=
  if 0 < t256 then { m with PE2 := some (t128 / (2 * t256)) } else m

/-- Serial-section step of the extractor (src/app.py:59-64). -/
def serialStep (raw : List Char) (m : Metrics) : Except PyErr Metrics :=
  match searchSection serialOpen serialClose raw with
  | none => .ok m
  | some sec =>
      match extract_times sec with
      | .error e => .error e
      | .ok times =>
          match times with
          | [] => .ok m
          | t :: _ => .ok { m with RS1e5 := some t }

/-- Scaling-section step of the extractor (src/app.py:66-79): with at least
three timing values the first three are stored, then the two efficiency
entries are added under their positivity guards; with fewer than three the
dictionary is left untouched. -/
def scaleStep (raw : List Char) (m : Metrics) : Except PyErr Metrics :=
  match searchSection scaleOpen scaleClose raw with
  | none => .ok m
  | some sec =>
      match extract_times sec with
      | .error e => .error e
      | .ok times =>
          match times with
          | t64 :: t128 :: t256 :: _ =>
              .ok (pe2Step t128 t256 (pe1Step t64 t128
                { m with T_2M_64 := some t64, T_2M_128 := some t128, T_2M_256 := some t256 }))
          | _ => .ok m

/-- Overall-score step of the extractor (src/app.py:81-84). -/
def addOverall (m : Metrics) : Metrics :=
  match m.PE1, m.PE2, m.RS1e5 with
  | some p1, some p2, some rs =>
      if 0 < rs then { m with overall := some (p1 * 0.4 + p2 * 0.4 + (1 / rs) * 0.2) } else m
  | _, _, _ => m

/-- parse_output (src/app.py:48-86): the whole extractor; a ValueError
raised by float() in either section propagates out. -/
def parse_output (raw : String) : Except PyErr Metrics :=
  match serialStep raw.data initMetrics with
  | .error e => .error e
  | .ok m1 =>
      match scaleStep raw.data m1 with
      | .error e => .error e
      | .ok m2 => .ok (addOverall m2)

/-- validate_output (src/app.py:89-100): header presence, then footer
presence, then the submitter-name pattern; on success the captured token is
returned verbatim. -/
def validate_output (raw : String) : Bool × String :=
  if !(containsSub HEADER raw.data) then (false, "Missing header marker")
  else if !(containsSub FOOTER raw.data) then (false, "Missing footer marker")
  else
    match searchToken nameLit raw.data with
    | none => (false, "Missing LEADERBOARD_NAME")
    | some name => (true, String.mk name)

/-- One stored leaderboard row (table submissions, src/app.py:31-38). -/
structure SubRecord where
  timestamp : String
  raw_output : String
  metrics : Metrics
deriving DecidableEq

/-- The INSERT ... ON CONFLICT(name) DO UPDATE upsert (src/app.py:123-131)
on the stored table, modelled as an association list keyed by name. -/
def upsert (db : List (String × SubRecord)) (name : String) (rec : SubRecord) :
    List (String × SubRecord) :=
  if db.any (fun p => p.1 = name) then
    db.map (fun p => if p.1 = name then (name, rec) else p)
  else db ++ [(name, rec)]

/-- submit (src/app.py:108-134): validate, and on failure respond 400 with
the reason, leaving the store untouched; on success extract the timestamp
(falling back to the current time, passed in as now) and the metrics, then
upsert.  The result carries the new store, the HTTP status and the body
payload (the error reason or the name). -/
def submit (now : String) (db : List (String × SubRecord)) (raw : String) :
    Except PyErr (List (String × SubRecord) × Nat × String) :=
  match validate_output raw with
  | (false, reason) => .ok (db, 400, reason)
  | (true, name) =>
      let timestamp :=
        match searchToken timeLit raw.data with
        | some t => String.mk t
        | none => now
      match parse_output raw with
      | .error e => .error e
      | .ok metrics => .ok (upsert db name ⟨timestamp, raw, metrics⟩, 200, name)

/-- Modelled from the spec: the serial section as the specification words
it, namely the first substring delimited by the exact markers with nothing
else required — the shortest region between the first occurrence of the
bare opening marker and the next occurrence of the closing marker.  The
code differs: its regex additionally requires a newline immediately after
the opening marker. -/
def serialSpecSection (raw : List Char) : Option (List Char) :=
  searchSection "--- SERIAL ---".data serialClose raw

/-! Structural lemmas about the extractor steps. -/

theorem serialStep_keeps (raw : List Char) (m m1 : Metrics)
    (h : serialStep raw m = Except.ok m1) :
    m1.T_2M_64 = m.T_2M_64 ∧ m1.T_2M_128 = m.T_2M_128 ∧ m1.T_2M_256 = m.T_2M_256 ∧
    m1.PE1 = m.PE1 ∧ m1.PE2 = m.PE2 ∧ m1.overall = m.overall := by
  unfold serialStep at h
  split at h
  · injection h with h
    subst h
    exact ⟨rfl, rfl, rfl, rfl, rfl, rfl⟩
  · split at h
    · exact Except.noConfusion h
    · split at h
      · injection h with h
        subst h
        exact ⟨rfl, rfl, rfl, rfl, rfl, rfl⟩
      · injection h with h
        subst h
        exact ⟨rfl, rfl, rfl, rfl, rfl, rfl⟩

theorem serialStep_rs (raw : List Char) (m m1 : Metrics) (sec : List Char) (ts : List ℚ)
    (hsec : searchSection serialOpen serialClose raw = some sec)
    (hts : extract_times sec = Except.ok ts)
    (h : serialStep raw m = Except.ok m1) :
    m1.RS1e5 = (match ts with | [] => m.RS1e5 | t :: _ => some t) := by
  unfold serialStep at h
  split at h
  · rename_i hnone
    rw [hsec] at hnone
    exact Option.noConfusion hnone
  · rename_i sec2 hsome
    rw [hsec] at hsome
    injection hsome with hsome
    subst hsome
    split at h
    · rename_i e herr
      rw [hts] at herr
      exact Except.noConfusion herr
    · rename_i ts2 hok
      rw [hts] at hok
      injection hok with hok
      subst hok
      split at h
      · injection h with h
        subst h
        rfl
      · injection h with h
        subst h
        rfl

theorem serialStep_rs_none (raw : List Char) (m m1 : Metrics)
    (hsec : searchSection serialOpen serialClose raw = none)
    (h : serialStep raw m = Except.ok m1) : m1 = m := by
  unfold serialStep at h
  rw [hsec] at h
  injection h with h
  exact h.symm

theorem scaleStep_keeps (raw : List Char) (m m1 : Metrics)
    (h : scaleStep raw m = Except.ok m1) :
    m1.RS1e5 = m.RS1e5 ∧ m1.overall = m.overall := by
  unfold scaleStep at h
  split at h
  · injection h with h
    subst h
    exact ⟨rfl, rfl⟩
  · split at h
    · exact Except.noConfusion h
    · split at h
      · injection h with h
        subst h
        unfold pe2Step pe1Step
        split <;> split <;> exact ⟨rfl, rfl⟩
      · injection h with h
        subst h
        exact ⟨rfl, rfl⟩

theorem scaleStep_none (raw : List Char) (m m1 : Metrics)
    (hsec : searchSection scaleOpen scaleClose raw = none)
    (h : scaleStep raw m = Except.ok m1) : m1 = m := by
  unfold scaleStep at h
  rw [hsec] at h
  injection h with h
  exact h.symm

theorem scaleStep_short (raw : List Char) (m m1 : Metrics) (sec : List Char) (ts : List ℚ)
    (hsec : searchSection scaleOpen scaleClose raw = some sec)
    (hts : extract_times sec = Except.ok ts)
    (hlen : ts.length < 3)
    (h : scaleStep raw m = Except.ok m1) : m1 = m := by
  unfold scaleStep at h
  split at h
  · rename_i hnone
    rw [hsec] at hnone
    exact Option.noConfusion hnone
  · rename_i sec2 hsome
    rw [hsec] at hsome
    injection hsome with hsome
    subst hsome
    split at h
    · rename_i e herr
      rw [hts] at herr
      exact Except.noConfusion herr
    · rename_i ts2 hok
      rw [hts] at hok
      injection hok with hok
      subst hok
      split at h
      · simp at hlen
        omega
      · injection h with h
        exact h.symm

theorem scaleStep_long (raw : List Char) (m m1 : Metrics) (sec : List Char)
    (t64 t128 t256 : ℚ) (rest : List ℚ)
    (hsec : searchSection scaleOpen scaleClose raw = some sec)
    (hts : extract_times sec = Except.ok (t64 :: t128 :: t256 :: rest))
    (h : scaleStep raw m = Except.ok m1) :
    m1.T_2M_64 = some t64 ∧ m1.T_2M_128 = some t128 ∧ m1.T_2M_256 = some t256 ∧
    m1.PE1 = (if 0 < t128 then some (t64 / (2 * t128)) else m.PE1) ∧
    m1.PE2 = (if 0 < t256 then some (t128 / (2 * t256)) else m.PE2) ∧
    m1.RS1e5 = m.RS1e5 ∧ m1.overall = m.overall := by
  unfold scaleStep at h
  split at h
  · rename_i hnone
    rw [hsec] at hnone
    exact Option.noConfusion hnone
  · rename_i sec2 hsome
    rw [hsec] at hsome
    injection hsome with hsome
    subst hsome
    split at h
    · rename_i e herr
      rw [hts] at herr
      exact Except.noConfusion herr
    · rename_i ts2 hok
      rw [hts] at hok
      injection hok with hok
      subst hok
      split at h
      · rename_i a64 a128 a256 tl hcons
        injection hcons with h64 hcons
        injection hcons with h128 hcons
        injection hcons with h256 hcons
        subst h64
        subst h128
        subst h256
        injection h with h
        subst h
        unfold pe2Step pe1Step
        split <;> split <;> simp_all
      · rename_i hnc
        exact absurd rfl (hnc t64 t128 t256 rest)

theorem addOverall_keeps (m : Metrics) :
    (addOverall m).RS1e5 = m.RS1e5 ∧ (addOverall m).T_2M_64 = m.T_2M_64 ∧
    (addOverall m).T_2M_128 = m.T_2M_128 ∧ (addOverall m).T_2M_256 = m.T_2M_256 ∧
    (addOverall m).PE1 = m.PE1 ∧ (addOverall m).PE2 = m.PE2 := by
  unfold addOverall
  split
  · split <;> exact ⟨rfl, rfl, rfl, rfl, rfl, rfl⟩
  · exact ⟨rfl, rfl, rfl, rfl, rfl, rfl⟩

theorem addOverall_of_PE1_none (m : Metrics) (h : m.PE1 = none) : addOverall m = m := by
  unfold addOverall
  split
  · simp_all
  · rfl

theorem addOverall_char (m : Metrics) (h0 : m.overall = none) :
    ((addOverall m).overall.isSome ↔
      m.PE1.isSome ∧ m.PE2.isSome ∧ ∃ rs, m.RS1e5 = some rs ∧ 0 < rs)
    ∧ ∀ p1 p2 rs, m.PE1 = some p1 → m.PE2 = some p2 → m.RS1e5 = some rs → 0 < rs →
        (addOverall m).overall = some (p1 * 0.4 + p2 * 0.4 + (1 / rs) * 0.2) := by
  constructor
  · rcases hPE1 : m.PE1 with _ | p1 <;> rcases hPE2 : m.PE2 with _ | p2 <;>
      rcases hRS : m.RS1e5 with _ | rs <;> simp_all [addOverall]
    by_cases hpos : 0 < rs
    · simp [if_pos hpos, hpos]
    · simp [if_neg hpos, hpos, h0]
  · intro p1 p2 rs hp1 hp2 hrs hpos
    simp only [addOverall, hp1, hp2, hrs, if_pos hpos]

theorem parse_output_decomp (raw : String) (m : Metrics)
    (h : parse_output raw = Except.ok m) :
    ∃ m1 m2, serialStep raw.data initMetrics = Except.ok m1 ∧
      scaleStep raw.data m1 = Except.ok m2 ∧ m = addOverall m2 := by
  unfold parse_output at h
  split at h
  · exact Except.noConfusion h
  · rename_i m1 hm1
    split at h
    · exact Except.noConfusion h
    · rename_i m2 hm2
      injection h with h
      exact ⟨m1, m2, hm1, hm2, h.symm⟩

/-! Concrete fixtures used by the witnesses and counterexamples. -/

/-- A complete well-formed submission: serial runtime 4 seconds; scaling
runtimes 8, 4, 2 seconds. -/
def goodText : String := "===== CS5220 HW3 LEADERBOARD SUBMISSION =====\nLEADERBOARD_NAME: alice\n--- SERIAL ---\nSimulation Time = 4 seconds\n--- END SERIAL ---\n--- SCALE_2M ---\nSimulation Time = 8 seconds\nSimulation Time = 4 seconds\nSimulation Time = 2 seconds\n--- END SCALE_2M ---\n===== END CS5220 HW3 LEADERBOARD SUBMISSION =====\n"

/-- The serial region the extractor isolates inside goodText. -/
def goodSerialSec : List Char := "Simulation Time = 4 seconds\n".data

/-- The scaling region the extractor isolates inside goodText. -/
def goodScaleSec : List Char := "Simulation Time = 8 seconds\nSimulation Time = 4 seconds\nSimulation Time = 2 seconds\n".data

/-- The metrics of goodText: RS1e5 4, timings 8, 4, 2, both efficiencies 1,
overall 0.4 + 0.4 + 0.2/4 = 17/20. -/
def goodMetrics : Metrics := ⟨some 4, some 8, some 4, some 2, some 1, some 1, some (17/20)⟩

/-- A serial section whose captured timing token e is not a valid float. -/
def badTokenText : String := "--- SERIAL ---\nSimulation Time = e seconds\n--- END SERIAL ---"

/-- Serial markers present in order with a timing line between them, but
with a space instead of a newline after the opening marker. -/
def bareMarkerText : String := "--- SERIAL --- Simulation Time = 5 seconds --- END SERIAL ---"

/-- Footer and name but no header. -/
def noHeaderText : String := "LEADERBOARD_NAME: bob\n===== END CS5220 HW3 LEADERBOARD SUBMISSION ====="

/-- Header and name but no footer. -/
def noFooterText : String := "===== CS5220 HW3 LEADERBOARD SUBMISSION =====\nLEADERBOARD_NAME: bob"

/-- A one-row store used to show rejection leaves the store unchanged. -/
def sampleDb : List (String × SubRecord) := [("bob", ⟨"2026-01-01", "old", initMetrics⟩)]

/-- Claim C1: for every input text accepted by the extractor, the overall
key is present exactly when PE1, PE2 and RS1e5 are all present with
RS1e5 positive, and then overall = 0.4*PE1 + 0.4*PE2 + 0.2*(1/RS1e5). -/
theorem overall_present_iff (raw : String) (m : Metrics)
    (hok : parse_output raw = Except.ok m) :
    (m.overall.isSome ↔ m.PE1.isSome ∧ m.PE2.isSome ∧ ∃ rs, m.RS1e5 = some rs ∧ 0 < rs)
    ∧ ∀ p1 p2 rs, m.PE1 = some p1 → m.PE2 = some p2 → m.RS1e5 = some rs → 0 < rs →
        m.overall = some (0.4 * p1 + 0.4 * p2 + 0.2 * (1 / rs)) := by
  obtain ⟨m1, m2, hm1, hm2, hm⟩ := parse_output_decomp raw m hok
  subst hm
  have k1 := serialStep_keeps _ _ _ hm1
  have k2 := scaleStep_keeps _ _ _ hm2
  have h0 : m2.overall = none := by
    rw [k2.2, k1.2.2.2.2.2]
    rfl
  have hc := addOverall_char m2 h0
  have ka := addOverall_keeps m2
  constructor
  · rw [ka.2.2.2.2.1, ka.2.2.2.2.2, ka.1]
    exact hc.1
  · intro p1 p2 rs hp1 hp2 hrs hpos
    rw [ka.2.2.2.2.1] at hp1
    rw [ka.2.2.2.2.2] at hp2
    rw [ka.1] at hrs
    rw [hc.2 p1 p2 rs hp1 hp2 hrs hpos]
    exact congrArg some (by ring)

/-- Witness for C1 at goodText. -/
theorem overall_present_iff_witness :
    parse_output goodText = Except.ok goodMetrics ∧
    goodMetrics.PE1 = some 1 ∧ goodMetrics.PE2 = some 1 ∧
    goodMetrics.RS1e5 = some 4 ∧ (0 : ℚ) < 4 ∧
    goodMetrics.overall = some (0.4 * 1 + 0.4 * 1 + 0.2 * (1 / 4)) := by
  refine ⟨by with_unfolding_all decide, rfl, rfl, rfl, by norm_num, ?_⟩
  exact (overall_present_iff goodText goodMetrics (by with_unfolding_all decide)).2
    1 1 4 rfl rfl rfl (by norm_num)

/-- Claim C2: refuted by the code — the extractor is not total.  On a
serial section holding `Simulation Time = e seconds` the scan captures the
token e and float() raises ValueError, which parse_output propagates. -/
theorem extractor_raises_valueerror :
    parse_output badTokenText = Except.error PyErr.valueError := by
  with_unfolding_all decide

/-- Claim C3: with at least 3 timing values in the scaling section the
first three are recorded as the three timing keys, and with fewer than 3
none of the timing, efficiency or overall keys are present. -/
theorem scale_all_or_nothing (raw : String) (sec : List Char) (ts : List ℚ) (m : Metrics)
    (hsec : searchSection scaleOpen scaleClose raw.data = some sec)
    (hts : extract_times sec = Except.ok ts)
    (hok : parse_output raw = Except.ok m) :
    (∀ t64 t128 t256 rest, ts = t64 :: t128 :: t256 :: rest →
        m.T_2M_64 = some t64 ∧ m.T_2M_128 = some t128 ∧ m.T_2M_256 = some t256)
    ∧ (ts.length < 3 →
        m.T_2M_64 = none ∧ m.T_2M_128 = none ∧ m.T_2M_256 = none ∧
        m.PE1 = none ∧ m.PE2 = none ∧ m.overall = none) := by
  obtain ⟨m1, m2, hm1, hm2, hm⟩ := parse_output_decomp raw m hok
  subst hm
  have k1 := serialStep_keeps _ _ _ hm1
  have ka := addOverall_keeps m2
  constructor
  · intro t64 t128 t256 rest hcons
    subst hcons
    have hl := scaleStep_long _ _ _ _ _ _ _ _ hsec hts hm2
    exact ⟨by rw [ka.2.1, hl.1], by rw [ka.2.2.1, hl.2.1], by rw [ka.2.2.2.1, hl.2.2.1]⟩
  · intro hlen
    have hs := scaleStep_short _ _ _ _ _ hsec hts hlen hm2
    rw [hs]
    have hPE1 : m1.PE1 = none := by rw [k1.2.2.2.1]; rfl
    have hA : addOverall m1 = m1 := addOverall_of_PE1_none m1 hPE1
    rw [hA]
    refine ⟨by rw [k1.1]; rfl, by rw [k1.2.1]; rfl, by rw [k1.2.2.1]; rfl, hPE1,
      by rw [k1.2.2.2.2.1]; rfl, by rw [k1.2.2.2.2.2]; rfl⟩

/-- Witness for C3 at goodText. -/
theorem scale_all_or_nothing_witness :
    searchSection scaleOpen scaleClose goodText.data = some goodScaleSec ∧
    extract_times goodScaleSec = Except.ok [8, 4, 2] ∧
    parse_output goodText = Except.ok goodMetrics ∧
    goodMetrics.T_2M_64 = some 8 ∧ goodMetrics.T_2M_128 = some 4 ∧
    goodMetrics.T_2M_256 = some 2 := by
  refine ⟨by with_unfolding_all decide, by with_unfolding_all decide,
    by with_unfolding_all decide, ?_⟩
  exact (scale_all_or_nothing goodText goodScaleSec [8, 4, 2] goodMetrics
    (by with_unfolding_all decide) (by with_unfolding_all decide)
    (by with_unfolding_all decide)).1 8 4 2 [] rfl

/-- Claim C4: with at least 3 timing values, PE1 is present with value
t64/(2*t128) exactly when t128 is positive and PE2 likewise for t256; with
fewer than 3 values neither is present. -/
theorem pe_presence_and_formulas (raw : String) (sec : List Char) (ts : List ℚ) (m : Metrics)
    (hsec : searchSection scaleOpen scaleClose raw.data = some sec)
    (hts : extract_times sec = Except.ok ts)
    (hok : parse_output raw = Except.ok m) :
    (∀ t64 t128 t256 rest, ts = t64 :: t128 :: t256 :: rest →
        m.PE1 = (if 0 < t128 then some (t64 / (2 * t128)) else none) ∧
        m.PE2 = (if 0 < t256 then some (t128 / (2 * t256)) else none))
    ∧ (ts.length < 3 → m.PE1 = none ∧ m.PE2 = none) := by
  obtain ⟨m1, m2, hm1, hm2, hm⟩ := parse_output_decomp raw m hok
  subst hm
  have k1 := serialStep_keeps _ _ _ hm1
  have ka := addOverall_keeps m2
  have hPE1n : m1.PE1 = none := by rw [k1.2.2.2.1]; rfl
  have hPE2n : m1.PE2 = none := by rw [k1.2.2.2.2.1]; rfl
  constructor
  · intro t64 t128 t256 rest hcons
    subst hcons
    have hl := scaleStep_long _ _ _ _ _ _ _ _ hsec hts hm2
    constructor
    · rw [ka.2.2.2.2.1, hl.2.2.2.1, hPE1n]
    · rw [ka.2.2.2.2.2, hl.2.2.2.2.1, hPE2n]
  · intro hlen
    have hs := scaleStep_short _ _ _ _ _ hsec hts hlen hm2
    rw [hs]
    have hA : addOverall m1 = m1 := addOverall_of_PE1_none m1 hPE1n
    rw [hA]
    exact ⟨hPE1n, hPE2n⟩

/-- Witness for C4 at goodText. -/
theorem pe_presence_and_formulas_witness :
    searchSection scaleOpen scaleClose goodText.data = some goodScaleSec ∧
    extract_times goodScaleSec = Except.ok [8, 4, 2] ∧
    parse_output goodText = Except.ok goodMetrics ∧
    goodMetrics.PE1 = (if (0 : ℚ) < 4 then some (8 / (2 * 4)) else none) ∧
    goodMetrics.PE2 = (if (0 : ℚ) < 2 then some (4 / (2 * 2)) else none) := by
  refine ⟨by with_unfolding_all decide, by with_unfolding_all decide,
    by with_unfolding_all decide, ?_⟩
  exact (pe_presence_and_formulas goodText goodScaleSec [8, 4, 2] goodMetrics
    (by with_unfolding_all decide) (by with_unfolding_all decide)
    (by with_unfolding_all decide)).1 8 4 2 [] rfl

/-- Claim C5: refuted as stated.  On a text whose serial markers are
separated from the timing line by spaces rather than a newline, the
section delimited by the bare markers contains a timing value 5, yet the
extractor records no RS1e5, because its pattern requires a newline
immediately after the opening marker. -/
theorem serial_marker_counterexample :
    serialSpecSection bareMarkerText.data = some " Simulation Time = 5 seconds ".data ∧
    extract_times " Simulation Time = 5 seconds ".data = Except.ok [5] ∧
    parse_output bareMarkerText = Except.ok initMetrics ∧
    initMetrics.RS1e5 = none := by
  refine ⟨?_, ?_, ?_, rfl⟩ <;> with_unfolding_all decide

/-- Claim C5 as amended: the serial region is delimited by the opening
marker followed by a newline and by the closing marker (first occurrence,
shortest span), and RS1e5 is the first timing value scanned there, absent
when the scan finds none. -/
theorem rs1e5_first_serial_value (raw : String) (sec : List Char) (ts : List ℚ) (m : Metrics)
    (hsec : searchSection serialOpen serialClose raw.data = some sec)
    (hts : extract_times sec = Except.ok ts)
    (hok : parse_output raw = Except.ok m) :
    m.RS1e5 = ts.head? := by
  obtain ⟨m1, m2, hm1, hm2, hm⟩ := parse_output_decomp raw m hok
  subst hm
  have ka := addOverall_keeps m2
  have k2 := scaleStep_keeps _ _ _ hm2
  have hr := serialStep_rs _ _ _ _ _ hsec hts hm1
  rw [ka.1, k2.1, hr]
  cases ts <;> rfl

/-- Witness for the amended C5 at goodText. -/
theorem rs1e5_first_serial_value_witness :
    searchSection serialOpen serialClose goodText.data = some goodSerialSec ∧
    extract_times goodSerialSec = Except.ok [4] ∧
    parse_output goodText = Except.ok goodMetrics ∧
    goodMetrics.RS1e5 = ([4] : List ℚ).head? := by
  refine ⟨by with_unfolding_all decide, by with_unfolding_all decide,
    by with_unfolding_all decide, ?_⟩
  exact rs1e5_first_serial_value goodText goodSerialSec [4] goodMetrics
    (by with_unfolding_all decide) (by with_unfolding_all decide)
    (by with_unfolding_all decide)

/-- Claim C6: refuted as stated.  On the empty text no part matches the
name pattern, yet the validator does not fail with the missing-name reason:
the header check comes first. -/
theorem name_validation_counterexample :
    ¬ (((validate_output "").2 = "Missing LEADERBOARD_NAME") ↔
        searchToken nameLit "".data = none) := by
  with_unfolding_all decide

/-- Claim C6 as amended: when both markers are present the validator fails
with the missing-name reason exactly when no part of the text matches the
name pattern, and when the pattern captures a token the validator succeeds
returning that token verbatim. -/
theorem name_validation_iff (raw : String)
    (hh : containsSub HEADER raw.data = true) (hf : containsSub FOOTER raw.data = true) :
    (validate_output raw = (false, "Missing LEADERBOARD_NAME") ↔
      searchToken nameLit raw.data = none)
    ∧ ∀ tok, searchToken nameLit raw.data = some tok →
        validate_output raw = (true, String.mk tok) := by
  constructor
  · cases hst : searchToken nameLit raw.data with
    | none => simp [validate_output, hh, hf, hst]
    | some tok0 => simp [validate_output, hh, hf, hst]
  · intro tok hst
    simp [validate_output, hh, hf, hst]

/-- Witness for the amended C6 at goodText. -/
theorem name_validation_iff_witness :
    containsSub HEADER goodText.data = true ∧ containsSub FOOTER goodText.data = true ∧
    searchToken nameLit goodText.data = some "alice".data ∧
    validate_output goodText = (true, "alice") := by
  refine ⟨by with_unfolding_all decide, by with_unfolding_all decide,
    by with_unfolding_all decide, ?_⟩
  exact (name_validation_iff goodText (by with_unfolding_all decide)
    (by with_unfolding_all decide)).2 "alice".data (by with_unfolding_all decide)

/-- Claim C7: a text without the header marker is rejected as missing the
header whatever else it contains, and a text with the header but without
the footer marker is rejected as missing the footer. -/
theorem header_footer_precedence (raw : String) :
    (containsSub HEADER raw.data = false →
      validate_output raw = (false, "Missing header marker"))
    ∧ (containsSub HEADER raw.data = true → containsSub FOOTER raw.data = false →
      validate_output raw = (false, "Missing footer marker")) := by
  constructor
  · intro hh
    simp [validate_output, hh]
  · intro hh hf
    simp [validate_output, hh, hf]

/-- Witness for C7: a text with footer and name but no header, and a text
with header and name but no footer. -/
theorem header_footer_precedence_witness :
    containsSub HEADER noHeaderText.data = false ∧
    validate_output noHeaderText = (false, "Missing header marker") ∧
    containsSub HEADER noFooterText.data = true ∧
    containsSub FOOTER noFooterText.data = false ∧
    validate_output noFooterText = (false, "Missing footer marker") :=
  ⟨by with_unfolding_all decide,
   (header_footer_precedence noHeaderText).1 (by with_unfolding_all decide),
   by with_unfolding_all decide,
   by with_unfolding_all decide,
   (header_footer_precedence noFooterText).2 (by with_unfolding_all decide)
     (by with_unfolding_all decide)⟩

/-- Claim C8: the extractor is a function of the text alone — identical
input texts yield identical metrics, and no state or mutation exists in the
embedding. -/
theorem extractor_deterministic (raw1 raw2 : String) (h : raw1 = raw2) :
    parse_output raw1 = parse_output raw2 := by
  rw [h]

/-- Witness for C8 at goodText. -/
theorem extractor_deterministic_witness :
    goodText = goodText ∧ parse_output goodText = parse_output goodText :=
  ⟨rfl, extractor_deterministic goodText goodText rfl⟩

/-- Claim C9: a submission failing validation is rejected with status 400
carrying the specific reason, and the stored state is returned unchanged. -/
theorem submit_rejects_without_persisting (now raw : String)
    (db : List (String × SubRecord)) (reason : String)
    (h : validate_output raw = (false, reason)) :
    submit now db raw = Except.ok (db, 400, reason) := by
  unfold submit
  rw [h]

/-- Witness for C9: the empty submission against a one-row store. -/
theorem submit_rejects_without_persisting_witness :
    validate_output "" = (false, "Missing header marker") ∧
    submit "2026-02-03T00:00:00+00:00" sampleDb "" =
      Except.ok (sampleDb, 400, "Missing header marker") :=
  ⟨by with_unfolding_all decide,
   submit_rejects_without_persisting "2026-02-03T00:00:00+00:00" "" sampleDb
     "Missing header marker" (by with_unfolding_all decide)⟩

/-- Claim C10: whenever the scaling scan yields at least 3 timing values,
all three timing keys are present — with the 1st, 2nd and 3rd scanned
values — regardless of the values themselves. -/
theorem scale_triple_always_recorded (raw : String) (sec : List Char) (ts : List ℚ)
    (m : Metrics)
    (hsec : searchSection scaleOpen scaleClose raw.data = some sec)
    (hts : extract_times sec = Except.ok ts)
    (hlen : 3 ≤ ts.length)
    (hok : parse_output raw = Except.ok m) :
    m.T_2M_64 = ts[0]? ∧ m.T_2M_128 = ts[1]? ∧ m.T_2M_256 = ts[2]? ∧
    m.T_2M_64.isSome ∧ m.T_2M_128.isSome ∧ m.T_2M_256.isSome := by
  obtain ⟨m1, m2, hm1, hm2, hm⟩ := parse_output_decomp raw m hok
  subst hm
  have ka := addOverall_keeps m2
  rcases ts with _ | ⟨t64, _ | ⟨t128, _ | ⟨t256, rest⟩⟩⟩
  · simp at hlen
  · simp at hlen
  · simp at hlen
  · have hl := scaleStep_long _ _ _ _ _ _ _ _ hsec hts hm2
    have e64 : (addOverall m2).T_2M_64 = some t64 := by rw [ka.2.1, hl.1]
    have e128 : (addOverall m2).T_2M_128 = some t128 := by rw [ka.2.2.1, hl.2.1]
    have e256 : (addOverall m2).T_2M_256 = some t256 := by rw [ka.2.2.2.1, hl.2.2.1]
    refine ⟨by rw [e64]; simp, by rw [e128]; simp, by rw [e256]; simp, ?_, ?_, ?_⟩ <;>
      simp [e64, e128, e256]

/-- Witness for C10 at goodText. -/
theorem scale_triple_always_recorded_witness :
    searchSection scaleOpen scaleClose goodText.data = some goodScaleSec ∧
    extract_times goodScaleSec = Except.ok [8, 4, 2] ∧
    3 ≤ ([8, 4, 2] : List ℚ).length ∧
    parse_output goodText = Except.ok goodMetrics ∧
    goodMetrics.T_2M_64 = ([8, 4, 2] : List ℚ)[0]? ∧
    goodMetrics.T_2M_128 = ([8, 4, 2] : List ℚ)[1]? ∧
    goodMetrics.T_2M_256 = ([8, 4, 2] : List ℚ)[2]? := by
  have h := scale_triple_always_recorded goodText goodScaleSec [8, 4, 2] goodMetrics
    (by with_unfolding_all decide) (by with_unfolding_all decide) (by decide)
    (by with_unfolding_all decide)
  exact ⟨by with_unfolding_all decide, by with_unfolding_all decide, by decide,
    by with_unfolding_all decide, h.1, h.2.1, h.2.2.1⟩
